import Mathlib

set_option linter.unusedVariables false

/-!
Shallow embedding of the Doodle Duel game-room server (src/server.ts).

The server keeps, per room, a `GameState` (the part spread into the
broadcast payload) plus timer handles (`RoomState`).  All socket handlers
are translated as pure functions `RoomState → … → RoomState × List Emit`,
where `Emit` records every outbound message together with its routing
target (`io.to(roomId)`, `io.to(socketId)`, or `socket.to(roomId)` which
excludes the sender).  Timer callbacks (`setTimeout` / `setInterval`
bodies) are modelled as separate "fire" functions invoked with the room
looked up at fire time; randomness (word picks, hint-letter picks) is
passed in as explicit parameters.  JS strings are Lean `String`s, JS
numbers that hold counters/scores are `Nat`/`Int` as appropriate.
-/

/-- The `Player` record from server.ts (scores are JS numbers used as integers;
the optional `disconnected?` flag defaults to `false`). -/
structure Player where
  id : String
  name : String
  avatarUrl : String
  score : Int
  isDrawing : Bool
  hasGuessed : Bool
  disconnected : Bool
  deriving DecidableEq, Repr

/-- Chat / system message record. -/
structure Message where
  playerName : String
  text : String
  isCorrect : Bool
  deriving DecidableEq, Repr

/-- A 2D point of a stroke.  The server never inspects coordinates, it only
stores and forwards them, so the numeric type is irrelevant to behaviour. -/
structure DrawingPoint where
  x : Int
  y : Int
  deriving DecidableEq, Repr

/-- A stroke record. -/
structure DrawingPath where
  color : String
  lineWidth : Nat
  path : List DrawingPoint
  deriving DecidableEq, Repr

/-- Game settings object of the room. -/
structure GameSettings where
  totalRounds : Nat
  deriving DecidableEq, Repr

/-- The per-room `gameState` object — exactly the fields spread into the
`gameStateUpdate` broadcast payload. -/
structure GameState where
  players : List Player
  messages : List Message
  drawingHistory : List DrawingPath
  isRoundActive : Bool
  isGameOver : Bool
  currentWord : String
  revealedIndices : List Nat
  roundTimer : Int
  drawerId : Option String
  ownerId : Option String
  gameSettings : GameSettings
  currentRound : Nat
  deriving DecidableEq, Repr

/-- The word-choice `setTimeout` closure captures the chosen drawer's id and
name; the fire-time re-check uses the captured id. -/
structure WordChoiceTimer where
  drawerId : String
  drawerName : String
  deriving DecidableEq, Repr

/-- A room: the game state plus its timer handles.  Intervals are modelled
as pending/not-pending flags; the word-choice timeout also carries the data
its callback closed over. -/
structure RoomState where
  gameState : GameState
  roundInterval : Bool
  hintInterval : Bool
  wordChoiceTimeout : Option WordChoiceTimer
  deriving DecidableEq, Repr

/-- Routing target of an outbound message: `io.to(roomId)` (everyone in the
room), `io.to(socketId)` / `socket.emit` (a single connection), or
`socket.to(roomId)` (everyone in the room except the sending socket). -/
inductive Target where
  | room : String → Target
  | conn : String → Target
  | exceptSelf : String → String → Target
  deriving DecidableEq, Repr

/-- Whether a target delivers to connection `c`, given the connection ids
currently joined to the socket room. -/
def Target.reaches (t : Target) (c : String) (members : List String) : Bool :=
  match t with
  | .room _ => members.contains c
  | .conn d => c == d
  | .exceptSelf _ sender => members.contains c && c != sender

/-- Every outbound event the embedded handlers produce, with its payload.
`scheduleStartRound` / `scheduleTeardown` record that a delayed callback was
scheduled (`setTimeout`). -/
inductive Emit where
  | gameStateUpdate : Target → GameState → Emit
  | drawerWord : Target → String → Emit
  | errorMsg : Target → String → Emit
  | promptWordChoice : Target → List String → Emit
  | timerUpdate : Target → Int → Emit
  | roundEnd : Target → String → Emit
  | playerGuessed : Target → String → String → Emit
  | closeGuess : Target → String → Emit
  | pathStarted : Target → DrawingPath → Emit
  | pathUpdated : Target → DrawingPath → Emit
  | drawingUndone : Target → Emit
  | canvasCleared : Target → Emit
  | roomCreated : Target → String → Emit
  | scheduleStartRound : String → Emit
  | scheduleTeardown : String → Emit
  deriving DecidableEq, Repr

/-- Replace the first element satisfying `pred` by its image under `f`
(models JS finding an element and mutating it in place). -/
def updateFirst {α : Type} (pred : α → Bool) (f : α → α) : List α → List α
  | [] => []
  | a :: as' => if pred a then f a :: as' else a :: updateFirst pred f as'

/-- JS `String.prototype.toLowerCase()` as used on player names and guesses
(character-wise lowercasing), written over the character list so that it is
kernel-computable. -/
def strToLower (s : String) : String := ⟨s.data.map Char.toLower⟩

/-- JS `String.prototype.trim()` (leading/trailing whitespace removal),
written over the character list so that it is kernel-computable. -/
def strTrim (s : String) : String :=
  ⟨((s.data.dropWhile Char.isWhitespace).reverse.dropWhile Char.isWhitespace).reverse⟩

/-- One DP row of the Levenshtein matrix: given the previous row
`pPrev :: pRest` and the already-computed entry `qPrev` to the left,
produce the remaining entries of the current row (character comparison is
case-insensitive, as in the source). -/
def levRowAux (bc : Char) : List Char → List Nat → Nat → List Nat
  | [], _, _ => []
  | ac :: as', pPrev :: pRest, qPrev =>
      let pCur := pRest.headD 0
      let cost := if ac.toLower == bc.toLower then 0 else 1
      let q := min (min (qPrev + 1) (pCur + 1)) (pPrev + cost)
      q :: levRowAux bc as' pRest q
  | _ :: _, [], _ => []

/-- The `levenshteinDistance` function from server.ts: classic DP edit distance with unit
insert/delete/substitute costs and case-insensitive character comparison;
empty-string fast paths return the other string's length. -/
def levenshteinDistance (a b : String) : Nat :=
  if a.length == 0 then b.length
  else if b.length == 0 then a.length
  else
    let al := a.data
    let finalRow :=
      (b.data.enum).foldl
        (fun prev p => (p.1 + 1) :: levRowAux p.2 al prev (p.1 + 1))
        (List.range (al.length + 1))
    finalRow.getLastD 0

/-- The per-position tokens of the masked word: `word.split("").map(...)`,
keeping the literal character when its index is revealed or it is a space,
and the placeholder otherwise. -/
def maskTokens (cs : List Char) (revealedIndices : List Nat) : List (List Char) :=
  cs.enum.map fun p => if revealedIndices.contains p.1 || p.2 == ' ' then [p.2] else ['_']

/-- The `getMaskedWord` helper from server.ts: mask then `.join(" ")`. -/
def getMaskedWord (word : String) (revealedIndices : List Nat) : String :=
  ⟨List.intercalate [' '] (maskTokens word.data revealedIndices)⟩

/-- The broadcast payload built by `broadcastGameState`: the game state with
`currentWord` replaced by its masked form while a round is active and a
drawer is set, and by the empty string otherwise. -/
def maskedState (gs : GameState) : GameState :=
  { gs with currentWord :=
      if gs.isRoundActive && gs.drawerId.isSome then
        getMaskedWord gs.currentWord gs.revealedIndices
      else "" }

/-- The `broadcastGameState(roomId)` helper: one `gameStateUpdate` to the whole room. -/
def broadcastEmits (rid : String) (gs : GameState) : List Emit :=
  [Emit.gameStateUpdate (Target.room rid) (maskedState gs)]

/-- The `broadcastFullWordToDrawer(roomId)` helper: the unmasked word, privately to the
drawer's connection (no-op when no drawer is set). -/
def drawerWordEmits (gs : GameState) : List Emit :=
  match gs.drawerId with
  | some d => [Emit.drawerWord (Target.conn d) gs.currentWord]
  | none => []

/-- Indices of not-yet-revealed, non-space characters of the current word,
in position order (the `unrevealed` array of `revealHint`). -/
def unrevealedIdx (cs : List Char) (revealed : List Nat) : List Nat :=
  (cs.enum.filter fun p => !revealed.contains p.1 && p.2 != ' ').map Prod.fst

/-- The `revealHint(roomId)` callback: if more than 2 non-space letters are still hidden,
push one random hidden index (random pick modelled by `k`, reduced mod the
candidate count) and broadcast; otherwise do nothing. -/
def revealHint (rid : String) (room : RoomState) (k : Nat) : RoomState × List Emit :=
  let cs := room.gameState.currentWord.data
  let unrevealed := unrevealedIdx cs room.gameState.revealedIndices
  if unrevealed.length > 2 then
    let j := unrevealed.getD (k % unrevealed.length) 0
    let gs' := { room.gameState with revealedIndices := room.gameState.revealedIndices ++ [j] }
    ({ room with gameState := gs' }, broadcastEmits rid gs')
  else (room, [])

/-- The `endRound(roomId, wordGuessed)` helper: cancel all timers; unless the round
never became active and was not guessed, post the reveal message and emit
`roundEnd`; clear `isRoundActive`, broadcast, and schedule `startRound`
after the cool-down. -/
def endRound (rid : String) (room : RoomState) (wordGuessed : Bool) : RoomState × List Emit :=
  let room0 : RoomState :=
    { room with roundInterval := false, hintInterval := false, wordChoiceTimeout := none }
  let gs := room0.gameState
  if !gs.isRoundActive && !wordGuessed then
    let gs2 := { gs with isRoundActive := false }
    ({ room0 with gameState := gs2 },
     broadcastEmits rid gs2 ++ [Emit.scheduleStartRound rid])
  else
    let m := if wordGuessed then "All players guessed the word!" else "Time\x27s up!"
    let gs1 : GameState := { gs with messages := gs.messages ++
        [{ playerName := "System", text := m ++ " The word was: " ++ gs.currentWord,
           isCorrect := false }] }
    let gs2 := { gs1 with isRoundActive := false }
    ({ room0 with gameState := gs2 },
     [Emit.roundEnd (Target.room rid) gs.currentWord] ++
       broadcastEmits rid gs2 ++ [Emit.scheduleStartRound rid])

/-- The `startRound(roomId)` helper: clear all timers, rotate the drawer among the
connected players (bumping the round counter when rotation wraps, with the
special cases the source carves out), either finish the game, or reset the
per-round state, prompt the new drawer with word choices (the random picks
are the `choices` parameter), and arm the word-choice timeout. -/
def startRound (rid : String) (room : RoomState) (choices : List String) :
    RoomState × List Emit :=
  let room0 : RoomState :=
    { room with roundInterval := false, hintInterval := false, wordChoiceTimeout := none }
  let gs := room0.gameState
  let actives := gs.players.filter fun p => !p.disconnected
  if actives.length < 2 then
    (room0, [Emit.errorMsg (Target.room rid) "Not enough active players to start a round."])
  else
    let cdiOpt := actives.findIdx? fun p => gs.drawerId == some p.id
    let nextIdx : Nat :=
      match cdiOpt with
      | some i => (i + 1) % actives.length
      | none => 0
    let round1 : Nat :=
      match cdiOpt with
      | none => 1
      | some i =>
          if (i + 1) % actives.length == 0 && gs.currentRound != 0 then
            gs.currentRound + 1
          else gs.currentRound
    if round1 > gs.gameSettings.totalRounds then
      let gs' := { gs with
        currentRound := round1,
        isGameOver := true,
        isRoundActive := false,
        messages := gs.messages ++
          [{ playerName := "System",
             text := "Game Over! Check out the final scores!", isCorrect := false }] }
      ({ room0 with gameState := gs' }, broadcastEmits rid gs')
    else
      match actives.get? nextIdx with
      | none => ({ room0 with gameState := { gs with currentRound := round1 } }, [])
      | some newDrawer =>
        let players' :=
          updateFirst (fun p => p.id == newDrawer.id) (fun p => { p with hasGuessed := true })
            (gs.players.map fun p =>
              { p with isDrawing := p.id == newDrawer.id, hasGuessed := false })
        let gs' := { gs with
          currentRound := round1,
          drawingHistory := [],
          messages := [{ playerName := "System",
                         text := newDrawer.name ++ " is choosing a word...", isCorrect := false }],
          currentWord := "",
          revealedIndices := [],
          roundTimer := 90,
          isRoundActive := false,
          drawerId := some newDrawer.id,
          players := players' }
        ({ room0 with
             gameState := gs',
             wordChoiceTimeout := some ⟨newDrawer.id, newDrawer.name⟩ },
         broadcastEmits rid gs' ++
           [Emit.promptWordChoice (Target.conn newDrawer.id) choices])

/-- The word-choice `setTimeout` callback: re-fetch the room (it may have
been deleted), re-check that no round started and the drawer is still the
one this timer was armed for; if so, post the skip message, broadcast, and
advance rotation via `startRound`; otherwise do nothing. -/
def wordChoiceTimeoutFire (rid : String) (t : WordChoiceTimer) (choices : List String)
    (roomOpt : Option RoomState) : Option RoomState × List Emit :=
  match roomOpt with
  | none => (none, [])
  | some room =>
    if !room.gameState.isRoundActive && room.gameState.drawerId == some t.drawerId then
      let gs1 := { room.gameState with messages := room.gameState.messages ++
        [{ playerName := "System",
           text := t.drawerName ++ " took too long to choose a word. Skipping turn.",
           isCorrect := false }] }
      let out := startRound rid { room with gameState := gs1 } choices
      (some out.1, broadcastEmits rid gs1 ++ out.2)
    else (some room, [])

/-- The `gameTick(roomId)` tick callback: decrement the timer; at exactly 45 fire the first
hint and arm the recurring hint interval; at 0 or below end the round,
otherwise emit the timer update. -/
def gameTick (rid : String) (room : RoomState) (k : Nat) : RoomState × List Emit :=
  let gs0 := { room.gameState with roundTimer := room.gameState.roundTimer - 1 }
  let room1 := { room with gameState := gs0 }
  let stage :=
    if gs0.roundTimer == 45 then
      let out := revealHint rid room1 k
      ({ out.1 with hintInterval := true }, out.2)
    else (room1, ([] : List Emit))
  let room2 := stage.1
  let e2 := stage.2
  if room2.gameState.roundTimer ≤ 0 then
    let out3 := endRound rid room2 false
    (out3.1, e2 ++ out3.2)
  else
    (room2, e2 ++ [Emit.timerUpdate (Target.room rid) room2.gameState.roundTimer])

/-- The `guesserPoints` award of the correct-guess branch:
`Math.max(10, Math.floor(roundTimer * 0.6) + 10)`.  For the timer range the
server produces (0 ≤ t ≤ 90) the double multiplication `t * 0.6` floors to
exactly ⌊3t/5⌋, so the embedding uses exact integer arithmetic. -/
def guesserPoints (t : Int) : Int :=
  max 10 ((3 * t).fdiv 5 + 10)

/-- The `createRoom` handler: fresh room with the creator as sole player, owner
and drawer-designate, round 0, default 3 total rounds. -/
def createRoom (rid sockId name avatarUrl : String) : RoomState × List Emit :=
  let player : Player :=
    { id := sockId, name := name, avatarUrl := avatarUrl, score := 0,
      isDrawing := true, hasGuessed := true, disconnected := false }
  let gs : GameState :=
    { players := [player],
      messages := [{ playerName := "System", text := name ++ " created the game.",
                     isCorrect := false }],
      drawingHistory := [],
      isRoundActive := false,
      isGameOver := false,
      currentWord := "",
      revealedIndices := [],
      roundTimer := 90,
      drawerId := some sockId,
      ownerId := some sockId,
      gameSettings := { totalRounds := 3 },
      currentRound := 0 }
  ({ gameState := gs, roundInterval := false, hintInterval := false, wordChoiceTimeout := none },
   [Emit.roomCreated (Target.conn sockId) rid] ++ broadcastEmits rid gs)

/-- The tail of the `joinRoom` handler: find `me` by socket id and, if no
round is active, set the drawing/guessed flags to "is sole connected
player", promoting a sole player to owner and drawer. -/
def joinRoomMeBlock (gs : GameState) (sockId : String) : GameState :=
  match gs.players.find? (fun p => p.id == sockId) with
  | none => gs
  | some me =>
    if !gs.isRoundActive then
      let isOnly := (gs.players.filter fun p => !p.disconnected).length == 1
      let players' := updateFirst (fun p => p.id == sockId)
        (fun p => { p with isDrawing := isOnly, hasGuessed := isOnly }) gs.players
      { gs with
        players := players',
        ownerId := if isOnly then some me.id else gs.ownerId,
        drawerId := if isOnly then some me.id else gs.drawerId }
    else gs

/-- The `joinRoom` handler body once the room was found: rejoin a disconnected
same-named (case-insensitive) player, reject an active name collision, or
append a fresh player; then, outside an active round, promote a sole
connected player to drawer and owner; finally broadcast. -/
def joinRoom (rid : String) (room : RoomState) (sockId name avatarUrl : String) :
    RoomState × List Emit :=
  let gs := room.gameState
  match gs.players.find? (fun p => strToLower p.name == strToLower name) with
  | some existing =>
    if !existing.disconnected then
      (room, [Emit.errorMsg (Target.conn sockId) "A player with that name is already active in this room."])
    else
      let players1 := updateFirst (fun p => strToLower p.name == strToLower name)
        (fun p => { p with id := sockId, disconnected := false, avatarUrl := avatarUrl })
        gs.players
      let gsA := { gs with
        players := players1,
        messages := gs.messages ++
          [{ playerName := "System", text := existing.name ++ " has rejoined the game.",
             isCorrect := false }] }
      let gsB := joinRoomMeBlock gsA sockId
      ({ room with gameState := gsB }, broadcastEmits rid gsB)
  | none =>
      let player : Player :=
        { id := sockId, name := name, avatarUrl := avatarUrl, score := 0,
          isDrawing := false, hasGuessed := false, disconnected := false }
      let gsA := { gs with
        players := gs.players ++ [player],
        messages := gs.messages ++
          [{ playerName := "System", text := name ++ " has joined the game.",
             isCorrect := false }] }
      let gsB := joinRoomMeBlock gsA sockId
      ({ room with gameState := gsB }, broadcastEmits rid gsB)

/-- Move the element at index `i` to the front (the owner splice/unshift in
`startGame`, only performed when `i > 0`). -/
def moveToFront {α : Type} (l : List α) (i : Nat) : List α :=
  match l.get? i with
  | some a => a :: l.eraseIdx i
  | none => l

/-- The `startGame` handler: owner-only, only with no active round; requires at
least two connected players; zeroes scores, sets the round target and
`currentRound := 1`, moves the owner to the front of the connected players,
points `drawerId` at the last connected player (so rotation picks the owner)
and calls `startRound`. -/
def startGame (rid : String) (room : RoomState) (sockId : String) (totalRounds : Nat)
    (choices : List String) : RoomState × List Emit :=
  let gs := room.gameState
  if gs.ownerId == some sockId && !gs.isRoundActive then
    if (gs.players.filter fun p => !p.disconnected).length < 2 then
      (room, [Emit.errorMsg (Target.conn sockId) "You need at least 2 players to start."])
    else
      let players0 := gs.players.map fun p => { p with score := 0 }
      let actives0 := players0.filter fun p => !p.disconnected
      let activesR :=
        match actives0.findIdx? (fun p => p.id == sockId) with
        | some i => if i > 0 then moveToFront actives0 i else actives0
        | none => actives0
      let players1 := activesR ++ players0.filter fun p => p.disconnected
      match activesR.getLast? with
      | none => (room, [])
      | some lastP =>
        let gs' := { gs with
          gameSettings := { totalRounds := totalRounds },
          currentRound := 1,
          isGameOver := false,
          players := players1,
          drawerId := some lastP.id }
        startRound rid { room with gameState := gs' } choices
  else (room, [])

/-- The `playAgain` handler: owner-only reset back to the lobby — scores zeroed,
round counter 0, drawing log cleared, owner re-designated as drawer. -/
def playAgain (rid : String) (room : RoomState) (sockId : String) : RoomState × List Emit :=
  let gs := room.gameState
  if gs.ownerId == some sockId then
    let ownerName := ((gs.players.find? fun p => p.id == sockId).map Player.name).getD "The host"
    let gs' := { gs with
      isGameOver := false,
      isRoundActive := false,
      currentRound := 0,
      messages := [{ playerName := "System", text := ownerName ++ " started a new game!",
                     isCorrect := false }],
      drawingHistory := [],
      players := gs.players.map fun p =>
        { p with score := 0, isDrawing := p.id == sockId, hasGuessed := p.id == sockId },
      drawerId := some sockId }
    ({ room with gameState := gs' }, broadcastEmits rid gs')
  else (room, [])

/-- The `wordChosen` handler: drawer-only, only while no round is active; cancel
the word-choice timeout, install the chosen word verbatim, activate the
round, swap the "choosing" message for the "drawing" one, start the tick
interval, broadcast, and send the full word privately to the drawer. -/
def wordChosen (rid : String) (room : RoomState) (sockId word : String) :
    RoomState × List Emit :=
  let gs := room.gameState
  if !(gs.drawerId == some sockId) || gs.isRoundActive then (room, [])
  else
    match gs.players.find? (fun p => p.id == sockId) with
    | none => (room, [])
    | some drawer =>
      let gs' := { gs with
        currentWord := word,
        isRoundActive := true,
        messages := gs.messages.dropLast ++
          [{ playerName := "System", text := drawer.name ++ " is now drawing!",
             isCorrect := false }] }
      ({ room with gameState := gs', wordChoiceTimeout := none, roundInterval := true },
       broadcastEmits rid gs' ++ drawerWordEmits gs')

/-- The `sendMessage` handler (guess submission): ignored for unknown senders,
the drawer, players who already guessed, or outside an active round.  An
exact (trimmed, case-insensitive) match awards guesser and drawer points,
posts the success message, ends the round if everyone has guessed, and
broadcasts.  A mismatch broadcasts the guess to the whole room and, when the
secret word is non-empty, privately sends near-miss feedback by edit
distance. -/
def sendMessage (rid : String) (room : RoomState) (sockId text : String) :
    RoomState × List Emit :=
  let gs := room.gameState
  match gs.players.find? (fun p => p.id == sockId) with
  | none => (room, [])
  | some player =>
    if player.isDrawing || player.hasGuessed || !gs.isRoundActive then (room, [])
    else
      let normalizedGuess := strToLower (strTrim text)
      let normalizedWord := strToLower (strTrim gs.currentWord)
      if normalizedGuess == normalizedWord then
        let pts := guesserPoints gs.roundTimer
        let players1 := updateFirst (fun p => p.id == sockId)
          (fun p => { p with hasGuessed := true, score := p.score + pts }) gs.players
        let players2 := updateFirst (fun p => p.isDrawing)
          (fun p => { p with score := p.score + 20 }) players1
        let gs1 := { gs with
          players := players2,
          messages := gs.messages ++
            [{ playerName := "System",
               text := player.name ++ " guessed the word! (+" ++ toString pts ++ " pts)",
               isCorrect := true }] }
        let room1 := { room with gameState := gs1 }
        let allGuessed :=
          (gs1.players.filter fun p => !p.isDrawing && !p.disconnected).all fun p => p.hasGuessed
        if allGuessed then
          let out := endRound rid room1 true
          (out.1, out.2 ++ broadcastEmits rid out.1.gameState)
        else (room1, broadcastEmits rid gs1)
      else
        let feedback :=
          if gs.currentWord != "" then
            let distance := levenshteinDistance normalizedGuess normalizedWord
            if distance == 1 then
              [Emit.closeGuess (Target.conn sockId) "So close! One letter is off."]
            else if distance ≤ 3 then
              [Emit.closeGuess (Target.conn sockId) "You\x27re getting warmer!"]
            else []
          else []
        (room, [Emit.playerGuessed (Target.room rid) player.name text] ++ feedback)

/-- The `startPath` handler: drawer-only append of a new stroke, relayed to the
other participants. -/
def startPath (rid : String) (room : RoomState) (sockId : String) (p : DrawingPath) :
    RoomState × List Emit :=
  if room.gameState.drawerId == some sockId then
    ({ room with gameState :=
        { room.gameState with drawingHistory := room.gameState.drawingHistory ++ [p] } },
     [Emit.pathStarted (Target.exceptSelf rid sockId) p])
  else (room, [])

/-- The `drawPath` handler: drawer-only replacement of the last stroke, only
when the log is non-empty; relayed to the other participants. -/
def drawPath (rid : String) (room : RoomState) (sockId : String) (p : DrawingPath) :
    RoomState × List Emit :=
  if room.gameState.drawerId == some sockId && room.gameState.drawingHistory.length > 0 then
    ({ room with gameState :=
        { room.gameState with drawingHistory := room.gameState.drawingHistory.dropLast ++ [p] } },
     [Emit.pathUpdated (Target.exceptSelf rid sockId) p])
  else (room, [])

/-- The `undo` handler: drawer-only pop of the last stroke (a JS `pop` on an
empty array is a no-op), notice broadcast to the whole room. -/
def undoPath (rid : String) (room : RoomState) (sockId : String) : RoomState × List Emit :=
  if room.gameState.drawerId == some sockId then
    ({ room with gameState :=
        { room.gameState with drawingHistory := room.gameState.drawingHistory.dropLast } },
     [Emit.drawingUndone (Target.room rid)])
  else (room, [])

/-- The `clearCanvas` handler: drawer-only wipe of the log, notice broadcast to
the whole room. -/
def clearCanvas (rid : String) (room : RoomState) (sockId : String) : RoomState × List Emit :=
  if room.gameState.drawerId == some sockId then
    ({ room with gameState := { room.gameState with drawingHistory := [] } },
     [Emit.canvasCleared (Target.room rid)])
  else (room, [])

/-- The `disconnect` handler: flag the player, post the "left" message; with no
connected player left, schedule teardown and broadcast; otherwise transfer
ownership if needed, end the round if the drawer left (or if the last
straggler left), and broadcast. -/
def disconnectPlayer (rid : String) (room : RoomState) (sockId : String) :
    RoomState × List Emit :=
  let gs := room.gameState
  match gs.players.find? (fun p => p.id == sockId) with
  | none => (room, [])
  | some player =>
    let players1 := updateFirst (fun p => p.id == sockId)
      (fun p => { p with disconnected := true }) gs.players
    let gs1 := { gs with
      players := players1,
      messages := gs.messages ++
        [{ playerName := "System", text := player.name ++ " has left the game.",
           isCorrect := false }] }
    let actives := players1.filter fun p => !p.disconnected
    if actives.length == 0 then
      ({ room with gameState := gs1 },
       [Emit.scheduleTeardown rid] ++ broadcastEmits rid gs1)
    else
      let gs2 :=
        if gs1.ownerId == some sockId then
          match actives.head? with
          | some h =>
            { gs1 with
              ownerId := some h.id,
              messages := gs1.messages ++
                [{ playerName := "System", text := h.name ++ " is the new host.",
                   isCorrect := false }] }
          | none => gs1
        else gs1
      let room2 := { room with gameState := gs2 }
      let out :=
        if gs2.drawerId == some sockId then endRound rid room2 false
        else
          let allGuessed :=
            (gs2.players.filter fun p => !p.isDrawing && !p.disconnected).all fun p => p.hasGuessed
          if allGuessed && actives.length > 1 then endRound rid room2 true
          else (room2, ([] : List Emit))
      (out.1, out.2 ++ broadcastEmits rid out.1.gameState)

/-- Every externally triggered event the embedded room can process: socket
handlers plus timer-callback firings (with their randomness made explicit). -/
inductive RoomAction where
  | createRoom (sockId name avatarUrl : String)
  | joinRoom (sockId name avatarUrl : String)
  | startGame (sockId : String) (totalRounds : Nat) (choices : List String)
  | playAgain (sockId : String)
  | wordChosen (sockId word : String)
  | sendMessage (sockId text : String)
  | startPath (sockId : String) (p : DrawingPath)
  | drawPath (sockId : String) (p : DrawingPath)
  | undo (sockId : String)
  | clearCanvas (sockId : String)
  | disconnect (sockId : String)
  | wordChoiceFire (t : WordChoiceTimer) (choices : List String)
  | tickFire (k : Nat)
  | hintFire (k : Nat)
  | roundRestartFire (choices : List String)
  deriving DecidableEq, Repr

/-- Dispatch one event against the registry entry for room `rid` (`none` =
room absent / deleted).  Handlers that find no room fall through silently,
except `joinRoom`, which reports `RoomNotFound`, and `createRoom`, which
installs the fresh room. -/
def stepRoom (rid : String) (a : RoomAction) (r : Option RoomState) :
    Option RoomState × List Emit :=
  match a, r with
  | .createRoom sockId name avatarUrl, none =>
      let out := createRoom rid sockId name avatarUrl
      (some out.1, out.2)
  | .createRoom _ _ _, some rm => (some rm, [])
  | .joinRoom sockId _ _, none =>
      (none, [Emit.errorMsg (Target.conn sockId)
        "Room not found. Please check the ID or create a new game."])
  | .joinRoom sockId name avatarUrl, some rm =>
      let out := joinRoom rid rm sockId name avatarUrl
      (some out.1, out.2)
  | .startGame sockId totalRounds choices, some rm =>
      let out := startGame rid rm sockId totalRounds choices
      (some out.1, out.2)
  | .playAgain sockId, some rm =>
      let out := playAgain rid rm sockId
      (some out.1, out.2)
  | .wordChosen sockId word, some rm =>
      let out := wordChosen rid rm sockId word
      (some out.1, out.2)
  | .sendMessage sockId text, some rm =>
      let out := sendMessage rid rm sockId text
      (some out.1, out.2)
  | .startPath sockId p, some rm =>
      let out := startPath rid rm sockId p
      (some out.1, out.2)
  | .drawPath sockId p, some rm =>
      let out := drawPath rid rm sockId p
      (some out.1, out.2)
  | .undo sockId, some rm =>
      let out := undoPath rid rm sockId
      (some out.1, out.2)
  | .clearCanvas sockId, some rm =>
      let out := clearCanvas rid rm sockId
      (some out.1, out.2)
  | .disconnect sockId, some rm =>
      let out := disconnectPlayer rid rm sockId
      (some out.1, out.2)
  | .wordChoiceFire t choices, r => wordChoiceTimeoutFire rid t choices r
  | .tickFire k, some rm =>
      let out := gameTick rid rm k
      (some out.1, out.2)
  | .hintFire k, some rm =>
      let out := revealHint rid rm k
      (some out.1, out.2)
  | .roundRestartFire choices, some rm =>
      let out := startRound rid rm choices
      (some out.1, out.2)
  | _, none => (none, [])

/-! ### Concrete fixtures (used by witnesses and counterexamples) -/

/-- A two-player lobby: Alice (owner, drawer-designate) and Bob, no round
running yet — the state right after `createRoom` + `joinRoom`. -/
def alice : Player :=
  { id := "A", name := "Alice", avatarUrl := "av1", score := 0,
    isDrawing := true, hasGuessed := true, disconnected := false }

/-- Second fixture player. -/
def bob : Player :=
  { id := "B", name := "Bob", avatarUrl := "av2", score := 0,
    isDrawing := false, hasGuessed := false, disconnected := false }

/-- Lobby game state for the fixtures. -/
def lobbyGS : GameState :=
  { players := [alice, bob], messages := [], drawingHistory := [],
    isRoundActive := false, isGameOver := false, currentWord := "",
    revealedIndices := [], roundTimer := 90, drawerId := some "A",
    ownerId := some "A", gameSettings := { totalRounds := 3 }, currentRound := 0 }

/-- Lobby room fixture. -/
def lobbyRoom : RoomState :=
  { gameState := lobbyGS, roundInterval := false, hintInterval := false,
    wordChoiceTimeout := none }

/-- Mid-round fixture: Alice drawing "turtle", Bob guessing, timer 90. -/
def drawGS : GameState :=
  { lobbyGS with isRoundActive := true, currentWord := "turtle", currentRound := 1 }

/-- Mid-round room fixture. -/
def drawRoom : RoomState :=
  { gameState := drawGS, roundInterval := true, hintInterval := false,
    wordChoiceTimeout := none }

/-- Mid-round fixture with an empty secret word (reachable because
`wordChosen` accepts any string, including the empty one). -/
def emptyWordRoom : RoomState :=
  { drawRoom with gameState := { drawGS with currentWord := "" } }

/-- Fixture where Bob has disconnected holding 37 points. -/
def rejoinRoom : RoomState :=
  { lobbyRoom with gameState :=
      { lobbyGS with players := [alice, { bob with disconnected := true, score := 37 }] } }

/-- Choosing-word fixture: the word-choice timeout for Alice is pending. -/
def choosingRoom : RoomState :=
  { gameState := { lobbyGS with currentRound := 1 }, roundInterval := false,
    hintInterval := false, wordChoiceTimeout := some ⟨"A", "Alice"⟩ }

/-! ### List helper lemmas for the in-place-mutation model -/

lemma updateFirst_length {α : Type} (pr : α → Bool) (f : α → α) (l : List α) :
    (updateFirst pr f l).length = l.length := by
  induction l with
  | nil => rfl
  | cons a t ih =>
      simp only [updateFirst]
      split <;> simp [ih]

lemma mem_updateFirst {α : Type} {pr : α → Bool} {f : α → α} {l : List α} {a : α}
    (h : a ∈ l) : a ∈ updateFirst pr f l ∨ f a ∈ updateFirst pr f l := by
  induction l with
  | nil => cases h
  | cons b t ih =>
      simp only [updateFirst]
      rcases List.mem_cons.mp h with rfl | ht
      · split
        · exact Or.inr (List.mem_cons_self _ _)
        · exact Or.inl (List.mem_cons_self _ _)
      · split
        · exact Or.inl (List.mem_cons_of_mem _ ht)
        · rcases ih ht with h' | h'
          · exact Or.inl (List.mem_cons_of_mem _ h')
          · exact Or.inr (List.mem_cons_of_mem _ h')

lemma updateFirst_find?_mem {α : Type} {pr : α → Bool} {f : α → α} {l : List α} {a : α}
    (hf : l.find? pr = some a) : f a ∈ updateFirst pr f l := by
  induction l with
  | nil => simp at hf
  | cons b t ih =>
      by_cases hb : pr b
      · rw [List.find?_cons_of_pos _ hb] at hf
        injection hf with hf
        subst hf
        simp [updateFirst, hb]
      · rw [List.find?_cons_of_neg _ (by simp [hb])] at hf
        simp only [updateFirst, if_neg (by simp [hb] : ¬ pr b = true)]
        exact List.mem_cons_of_mem _ (ih hf)

lemma find?_updateFirst_self {α : Type} {pr : α → Bool} {f : α → α} {l : List α} {a : α}
    (hf : l.find? pr = some a) (hpres : ∀ x, pr (f x) = pr x) :
    (updateFirst pr f l).find? pr = some (f a) := by
  induction l with
  | nil => simp at hf
  | cons b t ih =>
      by_cases hb : pr b
      · rw [List.find?_cons_of_pos _ hb] at hf
        injection hf with hf
        subst hf
        simp only [updateFirst, if_pos hb]
        exact List.find?_cons_of_pos _ (by rw [hpres]; exact hb)
      · rw [List.find?_cons_of_neg _ (by simp [hb])] at hf
        simp only [updateFirst, if_neg (by simp [hb] : ¬ pr b = true)]
        rw [List.find?_cons_of_neg _ (by simp [hb])]
        exact ih hf

lemma find?_updateFirst_other {α : Type} {pr₂ pr : α → Bool} {f : α → α} {l : List α} {a : α}
    (hf : l.find? pr = some a) (hpres : ∀ x, pr (f x) = pr x) (ha : pr₂ a = false) :
    (updateFirst pr₂ f l).find? pr = some a := by
  induction l with
  | nil => simp at hf
  | cons b t ih =>
      by_cases hb : pr b
      · rw [List.find?_cons_of_pos _ hb] at hf
        injection hf with hf
        subst hf
        have hb2 : ¬ pr₂ b = true := by simp [ha]
        simp only [updateFirst, if_neg hb2]
        exact List.find?_cons_of_pos _ hb
      · rw [List.find?_cons_of_neg _ (by simp [hb])] at hf
        by_cases hb2 : pr₂ b
        · simp only [updateFirst, if_pos hb2]
          rw [List.find?_cons_of_neg _ (by rw [hpres]; simp [hb])]
          exact hf
        · simp only [updateFirst, if_neg hb2]
          rw [List.find?_cons_of_neg _ (by simp [hb])]
          exact ih hf

/-! ### Masking codec lemmas -/

lemma intercalate_singletons {α : Type} (c : α) :
    ∀ l : List α, List.intercalate [c] (l.map fun x => [x]) = List.intersperse c l
  | [] => by simp [List.intercalate]
  | [x] => by simp [List.intercalate]
  | x :: y :: t => by
      have ih := intercalate_singletons c (y :: t)
      simp only [List.intercalate, List.map_cons] at ih ⊢
      rw [List.intersperse_cons_cons, List.intersperse_cons_cons, List.flatten_cons,
        List.flatten_cons]
      simp only [List.singleton_append, List.cons_append, List.nil_append]
      rw [ih]

lemma mem_intersperse {α : Type} {c sep : α} :
    ∀ {l : List α}, c ∈ List.intersperse sep l → c = sep ∨ c ∈ l
  | [], h => by simp [List.intersperse_nil] at h
  | [x], h => by
      rw [List.intersperse_singleton] at h
      exact Or.inr h
  | x :: y :: t, h => by
      rw [List.intersperse_cons_cons] at h
      rcases List.mem_cons.mp h with rfl | h
      · exact Or.inr (List.mem_cons_self _ _)
      rcases List.mem_cons.mp h with rfl | h
      · exact Or.inl rfl
      · rcases mem_intersperse h with h' | h'
        · exact Or.inl h'
        · exact Or.inr (List.mem_cons_of_mem _ h')

/-! ### Hidden-letter bookkeeping lemmas -/

/-- Number of never-revealed, non-space letters of the current word. -/
def hiddenCount (gs : GameState) : Nat :=
  (unrevealedIdx gs.currentWord.data gs.revealedIndices).length

lemma mem_unrevealedIdx {cs : List Char} {rev : List Nat} {j : Nat}
    (h : j ∈ unrevealedIdx cs rev) :
    j ∉ rev ∧ ∃ hj : j < cs.length, cs.get ⟨j, hj⟩ ≠ ' ' := by
  unfold unrevealedIdx at h
  rcases List.mem_map.mp h with ⟨⟨i, ch⟩, hp, rfl⟩
  rcases List.mem_filter.mp hp with ⟨hpe, hpred⟩
  obtain ⟨hlen, hval⟩ := List.mem_enum hpe
  simp only [Bool.and_eq_true, Bool.not_eq_true', bne_iff_ne] at hpred
  refine ⟨?_, hlen, ?_⟩
  · intro hmem
    have hc : rev.contains i = true := List.elem_iff.mpr hmem
    rw [hpred.1] at hc
    exact Bool.false_ne_true hc
  · rw [List.get_eq_getElem, ← hval]
    exact hpred.2

lemma unrevealedIdx_nodup (cs : List Char) (rev : List Nat) :
    (unrevealedIdx cs rev).Nodup := by
  unfold unrevealedIdx
  have h1 : ((cs.enum.filter fun p => !rev.contains p.1 && p.2 != ' ').map Prod.fst).Sublist
      (cs.enum.map Prod.fst) := (List.filter_sublist _).map _
  rw [List.enum_map_fst] at h1
  exact h1.nodup (List.nodup_range _)

lemma unrevealedIdx_append_single (cs : List Char) (rev : List Nat) (j : Nat) :
    unrevealedIdx cs (rev ++ [j]) = (unrevealedIdx cs rev).filter (fun i => i != j) := by
  unfold unrevealedIdx
  rw [List.map_filter]
  rw [List.filter_filter]
  apply congrArg (List.map Prod.fst)
  apply List.filter_congr
  intro p hp
  by_cases h1 : p.1 ∈ rev <;> by_cases h2 : p.1 = j <;> simp [h1, h2]

lemma length_filter_ne_of_nodup {l : List Nat} {j : Nat} (hn : l.Nodup) (hj : j ∈ l) :
    (l.filter (fun i => i != j)).length = l.length - 1 := by
  rw [← List.Nodup.erase_eq_filter hn j]
  exact List.length_erase_of_mem hj

/-! ### Scoring-policy lemmas -/

lemma guesserPoints_floor (t : Int) : 10 ≤ guesserPoints t := le_max_left _ _

lemma guesserPoints_mono (s₁ s₂ : Int) (h : s₁ ≤ s₂) :
    guesserPoints s₁ ≤ guesserPoints s₂ := by
  unfold guesserPoints
  have h5 : (0 : Int) ≤ 5 := by norm_num
  rw [Int.fdiv_eq_ediv _ h5, Int.fdiv_eq_ediv _ h5]
  have hd := Int.ediv_le_ediv (c := 5) (by norm_num) (by linarith : 3 * s₁ ≤ 3 * s₂)
  exact max_le_max le_rfl (by linarith)

/-! ### joinRoom helper lemmas -/

lemma joinRoomMeBlock_length (gs : GameState) (sid : String) :
    (joinRoomMeBlock gs sid).players.length = gs.players.length := by
  unfold joinRoomMeBlock
  cases gs.players.find? (fun p => p.id == sid) with
  | none => rfl
  | some me =>
      dsimp only
      split
      · simp [updateFirst_length]
      · rfl

lemma joinRoomMeBlock_mem (gs : GameState) (sid : String) {q : Player}
    (h : q ∈ gs.players) :
    ∃ q' ∈ (joinRoomMeBlock gs sid).players, q'.id = q.id ∧ q'.name = q.name ∧
      q'.avatarUrl = q.avatarUrl ∧ q'.disconnected = q.disconnected ∧ q'.score = q.score := by
  unfold joinRoomMeBlock
  cases gs.players.find? (fun p => p.id == sid) with
  | none => exact ⟨q, h, rfl, rfl, rfl, rfl, rfl⟩
  | some me =>
      dsimp only
      split
      · rcases @mem_updateFirst Player (fun p => p.id == sid)
          (fun p => { p with
            isDrawing := (gs.players.filter fun p => !p.disconnected).length == 1,
            hasGuessed := (gs.players.filter fun p => !p.disconnected).length == 1 })
          gs.players q h with h' | h'
        · exact ⟨q, h', rfl, rfl, rfl, rfl, rfl⟩
        · exact ⟨_, h', rfl, rfl, rfl, rfl, rfl⟩
      · exact ⟨q, h, rfl, rfl, rfl, rfl, rfl⟩

/-! ### Broadcast-confidentiality machinery -/

/-- A payload predicate: if the event is a `gameStateUpdate`, its payload
was produced by `maskedState` (the masking broadcast helper). -/
def payloadMasked (e : Emit) : Prop :=
  match e with
  | Emit.gameStateUpdate _ gs => ∃ g, gs = maskedState g
  | _ => True

/-- All events in the list satisfy `payloadMasked`. -/
def emitsSafe (es : List Emit) : Prop := ∀ e ∈ es, payloadMasked e

/-- No `drawerWord` event occurs in the list. -/
def noDrawerWord (es : List Emit) : Prop := ∀ tg w, Emit.drawerWord tg w ∉ es

@[simp] lemma payloadMasked_masked (t : Target) (gs : GameState) :
    payloadMasked (Emit.gameStateUpdate t (maskedState gs)) := ⟨gs, rfl⟩

@[simp] lemma emitsSafe_nil : emitsSafe [] := by
  intro e he
  exact absurd he (List.not_mem_nil e)

@[simp] lemma emitsSafe_cons {e : Emit} {es : List Emit} :
    emitsSafe (e :: es) ↔ payloadMasked e ∧ emitsSafe es := by
  simp [emitsSafe]

@[simp] lemma emitsSafe_append {es₁ es₂ : List Emit} :
    emitsSafe (es₁ ++ es₂) ↔ emitsSafe es₁ ∧ emitsSafe es₂ := by
  simp [emitsSafe, or_imp, forall_and]

@[simp] lemma noDrawerWord_nil : noDrawerWord [] := by
  intro tg w h
  exact absurd h (List.not_mem_nil _)

@[simp] lemma noDrawerWord_cons {e : Emit} {es : List Emit} :
    noDrawerWord (e :: es) ↔ (∀ tg w, e ≠ Emit.drawerWord tg w) ∧ noDrawerWord es := by
  constructor
  · intro h
    refine ⟨fun tg w he => h tg w (he ▸ List.mem_cons_self _ _), fun tg w hm => h tg w (List.mem_cons_of_mem _ hm)⟩
  · rintro ⟨h1, h2⟩ tg w hm
    rcases List.mem_cons.mp hm with rfl | hm
    · exact h1 tg w rfl
    · exact h2 tg w hm

@[simp] lemma noDrawerWord_append {es₁ es₂ : List Emit} :
    noDrawerWord (es₁ ++ es₂) ↔ noDrawerWord es₁ ∧ noDrawerWord es₂ := by
  constructor
  · intro h
    exact ⟨fun tg w hm => h tg w (List.mem_append.mpr (Or.inl hm)),
           fun tg w hm => h tg w (List.mem_append.mpr (Or.inr hm))⟩
  · rintro ⟨h1, h2⟩ tg w hm
    rcases List.mem_append.mp hm with hm | hm
    · exact h1 tg w hm
    · exact h2 tg w hm

lemma emitsSafe_broadcast (rid : String) (gs : GameState) :
    emitsSafe (broadcastEmits rid gs) := by
  simp [broadcastEmits]

lemma noDrawerWord_broadcast (rid : String) (gs : GameState) :
    noDrawerWord (broadcastEmits rid gs) := by
  simp [broadcastEmits]

lemma emitsSafe_revealHint (rid : String) (room : RoomState) (k : Nat) :
    emitsSafe (revealHint rid room k).2 := by
  unfold revealHint
  dsimp only
  split
  · exact emitsSafe_broadcast rid _
  · exact emitsSafe_nil

lemma noDrawerWord_revealHint (rid : String) (room : RoomState) (k : Nat) :
    noDrawerWord (revealHint rid room k).2 := by
  unfold revealHint
  dsimp only
  split
  · exact noDrawerWord_broadcast rid _
  · exact noDrawerWord_nil

lemma emitsSafe_endRound (rid : String) (room : RoomState) (wg : Bool) :
    emitsSafe (endRound rid room wg).2 := by
  unfold endRound
  dsimp only
  repeat' split
  all_goals simp [broadcastEmits, payloadMasked]

lemma noDrawerWord_endRound (rid : String) (room : RoomState) (wg : Bool) :
    noDrawerWord (endRound rid room wg).2 := by
  unfold endRound
  dsimp only
  repeat' split
  all_goals simp [broadcastEmits]

lemma emitsSafe_startRound (rid : String) (room : RoomState) (choices : List String) :
    emitsSafe (startRound rid room choices).2 := by
  unfold startRound
  dsimp only
  repeat' split
  all_goals simp [broadcastEmits, payloadMasked]

lemma noDrawerWord_startRound (rid : String) (room : RoomState) (choices : List String) :
    noDrawerWord (startRound rid room choices).2 := by
  unfold startRound
  dsimp only
  repeat' split
  all_goals simp [broadcastEmits]

lemma emitsSafe_gameTick (rid : String) (room : RoomState) (k : Nat) :
    emitsSafe (gameTick rid room k).2 := by
  unfold gameTick
  dsimp only
  repeat' split
  all_goals simp [emitsSafe_revealHint, emitsSafe_endRound, payloadMasked]

lemma noDrawerWord_gameTick (rid : String) (room : RoomState) (k : Nat) :
    noDrawerWord (gameTick rid room k).2 := by
  unfold gameTick
  dsimp only
  repeat' split
  all_goals simp [noDrawerWord_revealHint, noDrawerWord_endRound]

lemma emitsSafe_wordChoiceTimeoutFire (rid : String) (t : WordChoiceTimer)
    (choices : List String) (r : Option RoomState) :
    emitsSafe (wordChoiceTimeoutFire rid t choices r).2 := by
  unfold wordChoiceTimeoutFire
  dsimp only
  repeat' split
  all_goals simp [emitsSafe_startRound, broadcastEmits, payloadMasked]

lemma noDrawerWord_wordChoiceTimeoutFire (rid : String) (t : WordChoiceTimer)
    (choices : List String) (r : Option RoomState) :
    noDrawerWord (wordChoiceTimeoutFire rid t choices r).2 := by
  unfold wordChoiceTimeoutFire
  dsimp only
  repeat' split
  all_goals simp [noDrawerWord_startRound, broadcastEmits]

lemma emitsSafe_createRoom (rid sockId name avatarUrl : String) :
    emitsSafe (createRoom rid sockId name avatarUrl).2 := by
  unfold createRoom
  simp [broadcastEmits, payloadMasked]

lemma noDrawerWord_createRoom (rid sockId name avatarUrl : String) :
    noDrawerWord (createRoom rid sockId name avatarUrl).2 := by
  unfold createRoom
  simp [broadcastEmits]

lemma emitsSafe_joinRoom (rid : String) (room : RoomState) (sockId name avatarUrl : String) :
    emitsSafe (joinRoom rid room sockId name avatarUrl).2 := by
  unfold joinRoom
  dsimp only
  repeat' split
  all_goals simp [broadcastEmits, payloadMasked]

lemma noDrawerWord_joinRoom (rid : String) (room : RoomState) (sockId name avatarUrl : String) :
    noDrawerWord (joinRoom rid room sockId name avatarUrl).2 := by
  unfold joinRoom
  dsimp only
  repeat' split
  all_goals simp [broadcastEmits]

lemma emitsSafe_startGame (rid : String) (room : RoomState) (sockId : String)
    (totalRounds : Nat) (choices : List String) :
    emitsSafe (startGame rid room sockId totalRounds choices).2 := by
  unfold startGame
  dsimp only
  repeat' split
  all_goals simp [emitsSafe_startRound, payloadMasked]

lemma noDrawerWord_startGame (rid : String) (room : RoomState) (sockId : String)
    (totalRounds : Nat) (choices : List String) :
    noDrawerWord (startGame rid room sockId totalRounds choices).2 := by
  unfold startGame
  dsimp only
  repeat' split
  all_goals simp [noDrawerWord_startRound]

lemma emitsSafe_playAgain (rid : String) (room : RoomState) (sockId : String) :
    emitsSafe (playAgain rid room sockId).2 := by
  unfold playAgain
  dsimp only
  repeat' split
  all_goals simp [broadcastEmits, payloadMasked]

lemma noDrawerWord_playAgain (rid : String) (room : RoomState) (sockId : String) :
    noDrawerWord (playAgain rid room sockId).2 := by
  unfold playAgain
  dsimp only
  repeat' split
  all_goals simp [broadcastEmits]

lemma emitsSafe_wordChosen (rid : String) (room : RoomState) (sockId word : String) :
    emitsSafe (wordChosen rid room sockId word).2 := by
  unfold wordChosen
  dsimp only
  repeat' split
  all_goals simp [broadcastEmits, drawerWordEmits, payloadMasked]
  all_goals (repeat' split)
  all_goals simp [payloadMasked]

lemma emitsSafe_sendMessage (rid : String) (room : RoomState) (sockId text : String) :
    emitsSafe (sendMessage rid room sockId text).2 := by
  unfold sendMessage
  dsimp only
  repeat' split
  all_goals simp [emitsSafe_endRound, broadcastEmits, payloadMasked]

lemma noDrawerWord_sendMessage (rid : String) (room : RoomState) (sockId text : String) :
    noDrawerWord (sendMessage rid room sockId text).2 := by
  unfold sendMessage
  dsimp only
  repeat' split
  all_goals simp [noDrawerWord_endRound, broadcastEmits]

lemma emitsSafe_startPath (rid : String) (room : RoomState) (sockId : String)
    (p : DrawingPath) : emitsSafe (startPath rid room sockId p).2 := by
  unfold startPath
  repeat' split
  all_goals simp [payloadMasked]

lemma emitsSafe_drawPath (rid : String) (room : RoomState) (sockId : String)
    (p : DrawingPath) : emitsSafe (drawPath rid room sockId p).2 := by
  unfold drawPath
  repeat' split
  all_goals simp [payloadMasked]

lemma emitsSafe_undoPath (rid : String) (room : RoomState) (sockId : String) :
    emitsSafe (undoPath rid room sockId).2 := by
  unfold undoPath
  repeat' split
  all_goals simp [payloadMasked]

lemma emitsSafe_clearCanvas (rid : String) (room : RoomState) (sockId : String) :
    emitsSafe (clearCanvas rid room sockId).2 := by
  unfold clearCanvas
  repeat' split
  all_goals simp [payloadMasked]

lemma noDrawerWord_startPath (rid : String) (room : RoomState) (sockId : String)
    (p : DrawingPath) : noDrawerWord (startPath rid room sockId p).2 := by
  unfold startPath
  repeat' split
  all_goals simp

lemma noDrawerWord_drawPath (rid : String) (room : RoomState) (sockId : String)
    (p : DrawingPath) : noDrawerWord (drawPath rid room sockId p).2 := by
  unfold drawPath
  repeat' split
  all_goals simp

lemma noDrawerWord_undoPath (rid : String) (room : RoomState) (sockId : String) :
    noDrawerWord (undoPath rid room sockId).2 := by
  unfold undoPath
  repeat' split
  all_goals simp

lemma noDrawerWord_clearCanvas (rid : String) (room : RoomState) (sockId : String) :
    noDrawerWord (clearCanvas rid room sockId).2 := by
  unfold clearCanvas
  repeat' split
  all_goals simp

lemma emitsSafe_disconnectPlayer (rid : String) (room : RoomState) (sockId : String) :
    emitsSafe (disconnectPlayer rid room sockId).2 := by
  unfold disconnectPlayer
  dsimp only
  repeat' split
  all_goals simp [emitsSafe_endRound, broadcastEmits, payloadMasked]

lemma noDrawerWord_disconnectPlayer (rid : String) (room : RoomState) (sockId : String) :
    noDrawerWord (disconnectPlayer rid room sockId).2 := by
  unfold disconnectPlayer
  dsimp only
  repeat' split
  all_goals simp [noDrawerWord_endRound, broadcastEmits]

lemma emitsSafe_stepRoom (rid : String) (a : RoomAction) (r : Option RoomState) :
    emitsSafe (stepRoom rid a r).2 := by
  cases a <;> cases r <;>
    simp [stepRoom, emitsSafe_createRoom, emitsSafe_joinRoom, emitsSafe_startGame,
      emitsSafe_playAgain, emitsSafe_wordChosen, emitsSafe_sendMessage,
      emitsSafe_disconnectPlayer, emitsSafe_wordChoiceTimeoutFire, emitsSafe_gameTick,
      emitsSafe_revealHint, emitsSafe_startRound, payloadMasked,
      emitsSafe_startPath, emitsSafe_drawPath, emitsSafe_undoPath, emitsSafe_clearCanvas]

lemma maskedState_word_cases (g : GameState) :
    (((maskedState g).isRoundActive = true ∧ ((maskedState g).drawerId).isSome = true) →
        (maskedState g).currentWord = getMaskedWord g.currentWord ((maskedState g).revealedIndices))
    ∧ (¬((maskedState g).isRoundActive = true ∧ ((maskedState g).drawerId).isSome = true) →
        (maskedState g).currentWord = "") := by
  unfold maskedState
  by_cases h1 : g.isRoundActive <;> by_cases h2 : g.drawerId.isSome <;> simp [h1, h2]

lemma drawerWord_wordChosen_spec (rid : String) (room : RoomState) (sockId word : String)
    (tg : Target) (w : String)
    (hm : Emit.drawerWord tg w ∈ (wordChosen rid room sockId word).2) :
    ∃ d, tg = Target.conn d ∧
      (wordChosen rid room sockId word).1.gameState.drawerId = some d ∧
      (wordChosen rid room sockId word).1.gameState.currentWord = w := by
  unfold wordChosen at hm ⊢
  dsimp only at hm ⊢
  split at hm
  · simp at hm
  · rename_i hguard
    have hdr : room.gameState.drawerId = some sockId := by
      rcases hd : room.gameState.drawerId == some sockId with _ | _
      · rw [hd] at hguard
        simp at hguard
      · exact eq_of_beq hd
    split at hm
    · simp at hm
    · simp only [broadcastEmits, drawerWordEmits, hdr] at hm ⊢
      simp at hm
      obtain ⟨rfl, rfl⟩ := hm
      have hact : room.gameState.isRoundActive = false := by
        rcases ha : room.gameState.isRoundActive with _ | _
        · rfl
        · exact absurd (by simp [ha]) hguard
      simp [hact]

/-- C2: for every action processed by a room, every `gameStateUpdate`
broadcast payload carries a `currentWord` that is the masked form of some
underlying word during an active round (with a drawer set) and the empty
string otherwise; and the unmasked word is delivered only through the
private `drawerWord` message, addressed to the current drawer's connection. -/
theorem C2_broadcast_masking_confidentiality (rid : String) (a : RoomAction)
    (r : Option RoomState) :
    (∀ t gs, Emit.gameStateUpdate t gs ∈ (stepRoom rid a r).2 →
        ∃ w : String,
          ((gs.isRoundActive = true ∧ gs.drawerId.isSome = true) →
              gs.currentWord = getMaskedWord w gs.revealedIndices)
          ∧ (¬(gs.isRoundActive = true ∧ gs.drawerId.isSome = true) →
              gs.currentWord = ""))
    ∧ (∀ tg w, Emit.drawerWord tg w ∈ (stepRoom rid a r).2 →
        ∃ d room2, tg = Target.conn d ∧ (stepRoom rid a r).1 = some room2
          ∧ room2.gameState.drawerId = some d
          ∧ room2.gameState.currentWord = w) := by
  constructor
  · intro t gs hm
    have hp := emitsSafe_stepRoom rid a r _ hm
    simp only [payloadMasked] at hp
    obtain ⟨g, rfl⟩ := hp
    exact ⟨g.currentWord, maskedState_word_cases g⟩
  · intro tg w hm
    cases r with
    | none =>
        cases a <;>
          simp [stepRoom, createRoom, broadcastEmits, wordChoiceTimeoutFire] at hm
    | some rm =>
        cases a with
        | wordChosen sockId word =>
            simp only [stepRoom] at hm ⊢
            obtain ⟨d, h1, h2, h3⟩ := drawerWord_wordChosen_spec rid rm sockId word tg w hm
            exact ⟨d, _, h1, rfl, h2, h3⟩
        | createRoom s n av =>
            simp only [stepRoom] at hm
            simp at hm
        | joinRoom s n av =>
            simp only [stepRoom] at hm
            exact absurd hm (noDrawerWord_joinRoom rid rm s n av tg w)
        | startGame s tr ch =>
            simp only [stepRoom] at hm
            exact absurd hm (noDrawerWord_startGame rid rm s tr ch tg w)
        | playAgain s =>
            simp only [stepRoom] at hm
            exact absurd hm (noDrawerWord_playAgain rid rm s tg w)
        | sendMessage s txt =>
            simp only [stepRoom] at hm
            exact absurd hm (noDrawerWord_sendMessage rid rm s txt tg w)
        | startPath s p =>
            simp only [stepRoom] at hm
            exact absurd hm (noDrawerWord_startPath rid rm s p tg w)
        | drawPath s p =>
            simp only [stepRoom] at hm
            exact absurd hm (noDrawerWord_drawPath rid rm s p tg w)
        | undo s =>
            simp only [stepRoom] at hm
            exact absurd hm (noDrawerWord_undoPath rid rm s tg w)
        | clearCanvas s =>
            simp only [stepRoom] at hm
            exact absurd hm (noDrawerWord_clearCanvas rid rm s tg w)
        | disconnect s =>
            simp only [stepRoom] at hm
            exact absurd hm (noDrawerWord_disconnectPlayer rid rm s tg w)
        | wordChoiceFire t ch =>
            simp only [stepRoom] at hm
            exact absurd hm (noDrawerWord_wordChoiceTimeoutFire rid t ch (some rm) tg w)
        | tickFire k =>
            simp only [stepRoom] at hm
            exact absurd hm (noDrawerWord_gameTick rid rm k tg w)
        | hintFire k =>
            simp only [stepRoom] at hm
            exact absurd hm (noDrawerWord_revealHint rid rm k tg w)
        | roundRestartFire ch =>
            simp only [stepRoom] at hm
            exact absurd hm (noDrawerWord_startRound rid rm ch tg w)

lemma maskTokens_eq_map (cs : List Char) (R : List Nat) :
    maskTokens cs R =
      (cs.enum.map fun p => if p.1 ∈ R ∨ p.2 = ' ' then p.2 else '_').map fun x => [x] := by
  unfold maskTokens
  rw [List.map_map]
  apply List.map_congr_left
  intro p hp
  by_cases h1 : p.1 ∈ R <;> by_cases h2 : p.2 = ' ' <;> simp [h1, h2]

/-- C9: the masked word is exactly the character-wise mask (literal at
revealed or space positions, placeholder elsewhere) joined by single
spaces; with nothing revealed every output character is a placeholder or a
space, and with everything revealed it is the word's characters separated
by spaces. -/
theorem C9_mask_semantics (w : String) (R : List Nat) :
    ((getMaskedWord w R).data =
        List.intersperse ' ' (w.data.enum.map fun p => if p.1 ∈ R ∨ p.2 = ' ' then p.2 else '_'))
    ∧ (∀ c ∈ (getMaskedWord w []).data, c = '_' ∨ c = ' ')
    ∧ ((∀ i, i < w.data.length → i ∈ R) →
        (getMaskedWord w R).data = List.intersperse ' ' w.data) := by
  have key : ∀ R' : List Nat, (getMaskedWord w R').data =
      List.intersperse ' ' (w.data.enum.map fun p => if p.1 ∈ R' ∨ p.2 = ' ' then p.2 else '_') := by
    intro R'
    show List.intercalate [' '] (maskTokens w.data R') = _
    rw [maskTokens_eq_map, intercalate_singletons]
  refine ⟨key R, ?_, ?_⟩
  · intro c hc
    rw [key []] at hc
    rcases mem_intersperse hc with h | h
    · exact Or.inr h
    · rcases List.mem_map.mp h with ⟨p, hp, rfl⟩
      by_cases h2 : p.2 = ' '
      · simp [h2]
      · simp [h2]
  · intro hall
    rw [key R]
    congr 1
    have hmap : (w.data.enum.map fun p => if p.1 ∈ R ∨ p.2 = ' ' then p.2 else '_') =
        w.data.enum.map Prod.snd := by
      apply List.map_congr_left
      rintro ⟨i, ch⟩ hp
      have hi := (List.mem_enum hp).1
      simp [hall _ hi]
    rw [hmap, List.enum_map_snd]

/-- C3: one `revealHint` step either leaves the revealed set unchanged or
appends exactly one fresh, in-range, non-space index (so the set only
grows and never gains a space position); it does nothing when at most 2
non-space letters remain hidden, and it never pushes the hidden count
below 2. -/
theorem C3_revealHint_hint_invariants (rid : String) (room : RoomState) (k : Nat) :
    ((revealHint rid room k).1.gameState.revealedIndices = room.gameState.revealedIndices
      ∨ ∃ j, (revealHint rid room k).1.gameState.revealedIndices
            = room.gameState.revealedIndices ++ [j]
          ∧ j ∉ room.gameState.revealedIndices
          ∧ ∃ hj : j < room.gameState.currentWord.data.length,
              room.gameState.currentWord.data.get ⟨j, hj⟩ ≠ ' ')
    ∧ (hiddenCount room.gameState ≤ 2 → revealHint rid room k = (room, []))
    ∧ (2 ≤ hiddenCount room.gameState →
        2 ≤ hiddenCount (revealHint rid room k).1.gameState)
    ∧ ((∀ i ∈ room.gameState.revealedIndices,
          ∀ hi : i < room.gameState.currentWord.data.length,
            room.gameState.currentWord.data.get ⟨i, hi⟩ ≠ ' ') →
        ∀ i ∈ (revealHint rid room k).1.gameState.revealedIndices,
          ∀ hi : i < room.gameState.currentWord.data.length,
            room.gameState.currentWord.data.get ⟨i, hi⟩ ≠ ' ') := by
  by_cases hlen :
      (unrevealedIdx room.gameState.currentWord.data room.gameState.revealedIndices).length > 2
  · have hmod : k % (unrevealedIdx room.gameState.currentWord.data
        room.gameState.revealedIndices).length <
        (unrevealedIdx room.gameState.currentWord.data
          room.gameState.revealedIndices).length := Nat.mod_lt _ (by omega)
    have hjmem : (unrevealedIdx room.gameState.currentWord.data
        room.gameState.revealedIndices).getD
          (k % (unrevealedIdx room.gameState.currentWord.data
            room.gameState.revealedIndices).length) 0 ∈
        unrevealedIdx room.gameState.currentWord.data room.gameState.revealedIndices := by
      rw [List.getD_eq_get _ _ hmod]
      exact List.get_mem _ _ _
    obtain ⟨hnot, hjlt, hjch⟩ := mem_unrevealedIdx hjmem
    have hr : revealHint rid room k =
        ({ room with gameState :=
            { room.gameState with revealedIndices := room.gameState.revealedIndices ++
                [(unrevealedIdx room.gameState.currentWord.data
                    room.gameState.revealedIndices).getD
                  (k % (unrevealedIdx room.gameState.currentWord.data
                    room.gameState.revealedIndices).length) 0] } },
          broadcastEmits rid
            { room.gameState with revealedIndices := room.gameState.revealedIndices ++
                [(unrevealedIdx room.gameState.currentWord.data
                    room.gameState.revealedIndices).getD
                  (k % (unrevealedIdx room.gameState.currentWord.data
                    room.gameState.revealedIndices).length) 0] }) := by
      unfold revealHint
      dsimp only
      rw [if_pos hlen]
    refine ⟨?_, ?_, ?_, ?_⟩
    · right
      refine ⟨_, by rw [hr], hnot, hjlt, hjch⟩
    · intro hle
      exact absurd hlen (by unfold hiddenCount at hle; omega)
    · intro _
      rw [hr]
      unfold hiddenCount
      dsimp only
      rw [unrevealedIdx_append_single]
      rw [length_filter_ne_of_nodup (unrevealedIdx_nodup _ _) hjmem]
      omega
    · intro hpre i hi
      rw [hr] at hi
      dsimp only at hi
      rcases List.mem_append.mp hi with hi | hi
      · exact hpre i hi
      · rw [List.mem_singleton.mp hi]
        intro hlt
        exact hjch
  · have hr : revealHint rid room k = (room, []) := by
      unfold revealHint
      dsimp only
      rw [if_neg hlen]
    refine ⟨Or.inl (by rw [hr]), fun _ => hr, fun h2 => by rw [hr]; exact h2,
      fun hpre i hi => by rw [hr] at hi; exact hpre i hi⟩

/-- C1 (code bug): starting a game with `totalRounds = 3` in the two-player
lobby puts the owner on the easel with no round active yet (the
word-choosing phase), but the round counter lands on 2, not 1:
`startGame` pre-sets `currentRound = 1` and points `drawerId` at the last
connected player, so `startRound`'s wrap-around branch increments the
counter even for the very first round, bypassing both of its own
first-round guards. -/
theorem C1_startGame_first_round_counter :
    (startGame "R" lobbyRoom "A" 3 ["w1", "w2", "w3", "w4"]).1.gameState.currentRound = 2
    ∧ (startGame "R" lobbyRoom "A" 3 ["w1", "w2", "w3", "w4"]).1.gameState.drawerId = some "A"
    ∧ (startGame "R" lobbyRoom "A" 3 ["w1", "w2", "w3", "w4"]).1.gameState.isRoundActive
        = false := by
  refine ⟨?_, ?_, ?_⟩ <;> rfl

/-- C10: `wordChosen` validates only the sender (current drawer) and the
phase (no active round) — the chosen string itself is installed verbatim as
the secret word and the round starts, for every string whatsoever (the
handler has no word-list parameter at all, so membership in the offered
choices or the corpus cannot be and is not checked). -/
theorem C10_wordChosen_accepts_any_word (rid : String) (room : RoomState)
    (sockId word : String) (drawer : Player)
    (hdr : room.gameState.drawerId = some sockId)
    (hact : room.gameState.isRoundActive = false)
    (hfind : room.gameState.players.find? (fun p => p.id == sockId) = some drawer) :
    (wordChosen rid room sockId word).1.gameState.currentWord = word
    ∧ (wordChosen rid room sockId word).1.gameState.isRoundActive = true
    ∧ (wordChosen rid room sockId word).1.roundInterval = true
    ∧ (wordChosen rid room sockId word).1.wordChoiceTimeout = none := by
  unfold wordChosen
  dsimp only
  rw [if_neg (by simp [hdr, hact])]
  rw [hfind]
  exact ⟨rfl, rfl, rfl, rfl⟩

/-- C10 witness: in the lobby, the drawer can install even the empty string
as the secret word and the round starts. -/
theorem C10_witness :
    (wordChosen "R" lobbyRoom "A" "").1.gameState.currentWord = ""
    ∧ (wordChosen "R" lobbyRoom "A" "").1.gameState.isRoundActive = true := by
  have h := C10_wordChosen_accepts_any_word "R" lobbyRoom "A" "" alice rfl rfl rfl
  exact ⟨h.1, h.2.1⟩

/-- C8: every drawing-log mutation from a connection that is not the
current drawer leaves the whole room unchanged and emits nothing; for the
drawer, `drawPath` on an empty log is a complete no-op and `undo` on an
empty log leaves the log empty. -/
theorem C8_drawing_log_authorization (rid : String) (room : RoomState) (sockId : String)
    (p : DrawingPath) :
    (room.gameState.drawerId ≠ some sockId →
        startPath rid room sockId p = (room, [])
        ∧ drawPath rid room sockId p = (room, [])
        ∧ undoPath rid room sockId = (room, [])
        ∧ clearCanvas rid room sockId = (room, []))
    ∧ (room.gameState.drawerId = some sockId → room.gameState.drawingHistory = [] →
        drawPath rid room sockId p = (room, [])
        ∧ (undoPath rid room sockId).1.gameState.drawingHistory = []) := by
  constructor
  · intro hne
    have hb : (room.gameState.drawerId == some sockId) = false := by
      simp [hne]
    refine ⟨?_, ?_, ?_, ?_⟩ <;> simp [startPath, drawPath, undoPath, clearCanvas, hb]
  · intro heq hemp
    constructor
    · simp [drawPath, hemp]
    · simp [undoPath, heq, hemp]

/-- C8 witness: Bob (not the drawer) cannot append a stroke, and the
drawer's `undo` on the empty lobby log leaves it empty. -/
theorem C8_witness :
    startPath "R" drawRoom "B" ⟨"red", 3, []⟩ = (drawRoom, [])
    ∧ (undoPath "R" lobbyRoom "A").1.gameState.drawingHistory = [] := by
  refine ⟨((C8_drawing_log_authorization "R" drawRoom "B" ⟨"red", 3, []⟩).1 (by decide)).1, ?_⟩
  exact ((C8_drawing_log_authorization "R" lobbyRoom "A" ⟨"red", 3, []⟩).2 rfl rfl).2

/-- C2 witness: the broadcast emitted by `playAgain` in the lobby satisfies
the masking characterization. -/
theorem C2_witness :
    ∃ gs, Emit.gameStateUpdate (Target.room "R") gs ∈
        (stepRoom "R" (RoomAction.playAgain "A") (some lobbyRoom)).2
      ∧ ∃ w : String,
          ((gs.isRoundActive = true ∧ gs.drawerId.isSome = true) →
              gs.currentWord = getMaskedWord w gs.revealedIndices)
          ∧ (¬(gs.isRoundActive = true ∧ gs.drawerId.isSome = true) →
              gs.currentWord = "") := by
  have hmem : Emit.gameStateUpdate (Target.room "R")
      (maskedState (playAgain "R" lobbyRoom "A").1.gameState) ∈
      (stepRoom "R" (RoomAction.playAgain "A") (some lobbyRoom)).2 := by decide
  exact ⟨_, hmem, (C2_broadcast_masking_confidentiality "R" (RoomAction.playAgain "A")
    (some lobbyRoom)).1 _ _ hmem⟩

lemma startRound_mid_cycle (rid : String) (room : RoomState) (choices : List String) (i : Nat)
    (hidx : (room.gameState.players.filter fun p => !p.disconnected).findIdx?
        (fun p => room.gameState.drawerId == some p.id) = some i)
    (hlt : i + 1 < (room.gameState.players.filter fun p => !p.disconnected).length)
    (hround : room.gameState.currentRound ≤ room.gameState.gameSettings.totalRounds) :
    ∃ nd, (room.gameState.players.filter fun p => !p.disconnected).get? (i + 1) = some nd
      ∧ (startRound rid room choices).1.gameState.drawerId = some nd.id
      ∧ (startRound rid room choices).1.gameState.isRoundActive = false
      ∧ (startRound rid room choices).1.gameState.currentRound
          = room.gameState.currentRound := by
  unfold startRound
  dsimp only
  have hnlt : ¬ (room.gameState.players.filter fun p => !p.disconnected).length < 2 := by
    omega
  rw [if_neg hnlt, hidx]
  dsimp only
  rw [Nat.mod_eq_of_lt hlt]
  have hne0 : (i + 1 == 0) = false := by simp
  rw [hne0]
  simp only [Bool.false_and, Bool.false_eq_true, if_false]
  rw [if_neg (by simpa using hround : ¬ room.gameState.currentRound >
      room.gameState.gameSettings.totalRounds)]
  rw [List.get?_eq_get hlt]
  exact ⟨_, rfl, rfl, rfl, rfl⟩

/-- C7: the word-choice timeout callback is a harmless no-op whenever its
preconditions fail at fire time (room deleted, round already active, or
drawer changed); when it genuinely fires mid-cycle, it posts the skip
system message in the broadcast and advances rotation to the next connected
player without touching the round counter or activating a round. -/
theorem C7_word_choice_timeout (rid : String) (t : WordChoiceTimer) (choices : List String) :
    (wordChoiceTimeoutFire rid t choices none = (none, []))
    ∧ (∀ room : RoomState, room.gameState.isRoundActive = true →
        wordChoiceTimeoutFire rid t choices (some room) = (some room, []))
    ∧ (∀ room : RoomState, room.gameState.drawerId ≠ some t.drawerId →
        wordChoiceTimeoutFire rid t choices (some room) = (some room, []))
    ∧ (∀ (room : RoomState) (i : Nat),
        room.gameState.isRoundActive = false →
        room.gameState.drawerId = some t.drawerId →
        (room.gameState.players.filter fun p => !p.disconnected).findIdx?
            (fun p => room.gameState.drawerId == some p.id) = some i →
        i + 1 < (room.gameState.players.filter fun p => !p.disconnected).length →
        room.gameState.currentRound ≤ room.gameState.gameSettings.totalRounds →
        ∃ room2 nd,
          (wordChoiceTimeoutFire rid t choices (some room)).1 = some room2
          ∧ (room.gameState.players.filter fun p => !p.disconnected).get? (i + 1) = some nd
          ∧ room2.gameState.drawerId = some nd.id
          ∧ room2.gameState.isRoundActive = false
          ∧ room2.gameState.currentRound = room.gameState.currentRound
          ∧ ∃ gs, Emit.gameStateUpdate (Target.room rid) gs
                ∈ (wordChoiceTimeoutFire rid t choices (some room)).2
              ∧ ({ playerName := "System",
                   text := t.drawerName ++ " took too long to choose a word. Skipping turn.",
                   isCorrect := false } : Message) ∈ gs.messages) := by
  refine ⟨rfl, ?_, ?_, ?_⟩
  · intro room h
    unfold wordChoiceTimeoutFire
    dsimp only
    rw [if_neg (by simp [h])]
  · intro room h
    unfold wordChoiceTimeoutFire
    dsimp only
    rw [if_neg (by simp [h])]
  · intro room i hact hdr hidx hlt hround
    unfold wordChoiceTimeoutFire
    dsimp only
    rw [if_pos (by simp [hact, hdr])]
    dsimp only
    obtain ⟨nd, hget, hdr2, hact2, hrnd2⟩ :=
      startRound_mid_cycle rid
        { room with gameState := { room.gameState with messages := room.gameState.messages ++
            [{ playerName := "System",
               text := t.drawerName ++ " took too long to choose a word. Skipping turn.",
               isCorrect := false }] } }
        choices i hidx hlt hround
    refine ⟨_, nd, rfl, hget, hdr2, hact2, hrnd2, ?_⟩
    refine ⟨_, List.mem_append.mpr (Or.inl (List.mem_singleton.mpr rfl)), ?_⟩
    show _ ∈ (maskedState _).messages
    exact List.mem_append.mpr (Or.inr (List.mem_singleton.mpr rfl))

/-- C7 witness: a stale firing against the active round is a no-op, and a
genuine firing in the choosing phase rotates the easel from Alice to Bob
with the skip message in the broadcast. -/
theorem C7_witness :
    (wordChoiceTimeoutFire "R" ⟨"A", "Alice"⟩ ["w1"] (some drawRoom) = (some drawRoom, []))
    ∧ ∃ room2 nd,
        (wordChoiceTimeoutFire "R" ⟨"A", "Alice"⟩ ["w1"] (some choosingRoom)).1 = some room2
        ∧ (choosingRoom.gameState.players.filter fun p => !p.disconnected).get? 1 = some nd
        ∧ room2.gameState.drawerId = some nd.id
        ∧ room2.gameState.isRoundActive = false
        ∧ room2.gameState.currentRound = choosingRoom.gameState.currentRound
        ∧ ∃ gs, Emit.gameStateUpdate (Target.room "R") gs
              ∈ (wordChoiceTimeoutFire "R" ⟨"A", "Alice"⟩ ["w1"] (some choosingRoom)).2
            ∧ ({ playerName := "System",
                 text := "Alice" ++ " took too long to choose a word. Skipping turn.",
                 isCorrect := false } : Message) ∈ gs.messages := by
  refine ⟨(C7_word_choice_timeout "R" ⟨"A", "Alice"⟩ ["w1"]).2.1 drawRoom rfl, ?_⟩
  exact (C7_word_choice_timeout "R" ⟨"A", "Alice"⟩ ["w1"]).2.2.2 choosingRoom 0 rfl rfl
    (by decide) (by decide) (by decide)

lemma joinRoom_rejoin_eq (rid : String) (room : RoomState) (sockId name avatarUrl : String)
    (existing : Player)
    (hfind : room.gameState.players.find? (fun p => strToLower p.name == strToLower name)
        = some existing)
    (hdisc : existing.disconnected = true) :
    (joinRoom rid room sockId name avatarUrl).1.gameState =
      joinRoomMeBlock
        { room.gameState with
          players := updateFirst (fun p => strToLower p.name == strToLower name)
            (fun p => { p with id := sockId, disconnected := false, avatarUrl := avatarUrl })
            room.gameState.players,
          messages := room.gameState.messages ++
            [{ playerName := "System", text := existing.name ++ " has rejoined the game.",
               isCorrect := false }] } sockId := by
  unfold joinRoom
  dsimp only
  rw [hfind]
  dsimp only
  rw [if_neg (by simp [hdisc])]

/-- C4: a join under a name held (case-insensitively) by a disconnected
player is a rejoin — the record count is unchanged and the record now
carries the new connection handle and avatar, `disconnected` cleared, and
exactly the score it held before; a join colliding with a non-disconnected
player of the same name fails with the name-taken error and changes
nothing. -/
theorem C4_join_rejoin_semantics (rid : String) (room : RoomState)
    (sockId name avatarUrl : String) (existing : Player)
    (hfind : room.gameState.players.find? (fun p => strToLower p.name == strToLower name)
        = some existing) :
    (existing.disconnected = true →
        (joinRoom rid room sockId name avatarUrl).1.gameState.players.length
            = room.gameState.players.length
        ∧ ∃ q ∈ (joinRoom rid room sockId name avatarUrl).1.gameState.players,
            q.id = sockId ∧ q.name = existing.name ∧ q.avatarUrl = avatarUrl
            ∧ q.disconnected = false ∧ q.score = existing.score)
    ∧ (existing.disconnected = false →
        joinRoom rid room sockId name avatarUrl =
          (room, [Emit.errorMsg (Target.conn sockId)
            "A player with that name is already active in this room."])) := by
  constructor
  · intro hdisc
    rw [joinRoom_rejoin_eq rid room sockId name avatarUrl existing hfind hdisc]
    constructor
    · rw [joinRoomMeBlock_length]
      dsimp only
      rw [updateFirst_length]
    · have hmem := updateFirst_find?_mem
        (f := fun p => { p with id := sockId, disconnected := false, avatarUrl := avatarUrl })
        hfind
      obtain ⟨q', hq'mem, h1, h2, h3, h4, h5⟩ :=
        joinRoomMeBlock_mem
          { room.gameState with
            players := updateFirst (fun p => strToLower p.name == strToLower name)
              (fun p => { p with id := sockId, disconnected := false, avatarUrl := avatarUrl })
              room.gameState.players,
            messages := room.gameState.messages ++
              [{ playerName := "System", text := existing.name ++ " has rejoined the game.",
                 isCorrect := false }] }
          sockId hmem
      exact ⟨q', hq'mem, h1, h2, h3, h4, h5⟩
  · intro hdisc
    unfold joinRoom
    dsimp only
    rw [hfind]
    dsimp only
    rw [if_pos (by simp [hdisc])]

/-- C4 witness: Bob disconnected with 37 points; rejoining as "Bob" from a
new socket restores the record in place with the same score. -/
theorem C4_witness :
    (joinRoom "R" rejoinRoom "B2" "Bob" "av9").1.gameState.players.length
        = rejoinRoom.gameState.players.length
    ∧ ∃ q ∈ (joinRoom "R" rejoinRoom "B2" "Bob" "av9").1.gameState.players,
        q.id = "B2" ∧ q.name = "Bob" ∧ q.avatarUrl = "av9" ∧ q.disconnected = false
        ∧ q.score = 37 := by
  exact (C4_join_rejoin_semantics "R" rejoinRoom "B2" "Bob" "av9"
    { bob with disconnected := true, score := 37 } (by decide)).1 rfl

/-- C5: an eligible exact correct guess adds exactly
`max(10, ⌊roundTimer·0.6⌋ + 10)` to the guesser and exactly 20 to the
drawer (so each succeeding guesser triggers one 20-point drawer award); the
guesser award is at least 10 for every timer value and monotone in the
remaining time. -/
theorem C5_scoring_awards (rid : String) (room : RoomState) (sockId text : String)
    (player drawer : Player)
    (hp : room.gameState.players.find? (fun p => p.id == sockId) = some player)
    (hnd : player.isDrawing = false) (hng : player.hasGuessed = false)
    (hact : room.gameState.isRoundActive = true)
    (hmatch : strToLower (strTrim text) = strToLower (strTrim room.gameState.currentWord))
    (hd : room.gameState.players.find? (fun p => p.isDrawing) = some drawer)
    (hdid : (drawer.id == sockId) = false) :
    ((sendMessage rid room sockId text).1.gameState.players.find? (fun p => p.id == sockId)
        = some { player with
                 hasGuessed := true,
                 score := player.score + guesserPoints room.gameState.roundTimer })
    ∧ ((sendMessage rid room sockId text).1.gameState.players.find? (fun p => p.isDrawing)
        = some { drawer with score := drawer.score + 20 })
    ∧ 10 ≤ guesserPoints room.gameState.roundTimer
    ∧ (∀ s₁ s₂ : Int, s₁ ≤ s₂ → guesserPoints s₁ ≤ guesserPoints s₂) := by
  have key : (sendMessage rid room sockId text).1.gameState.players =
      updateFirst (fun p => p.isDrawing) (fun p => { p with score := p.score + 20 })
        (updateFirst (fun p => p.id == sockId)
          (fun p => { p with
                      hasGuessed := true,
                      score := p.score + guesserPoints room.gameState.roundTimer })
          room.gameState.players) := by
    unfold sendMessage
    dsimp only
    simp only [hp]
    rw [if_neg (by simp [hnd, hng, hact])]
    rw [if_pos (by simp [hmatch])]
    split
    · unfold endRound
      dsimp only
      split <;> rfl
    · rfl
  refine ⟨?_, ?_, guesserPoints_floor _, guesserPoints_mono⟩
  · rw [key]
    have h1 := find?_updateFirst_self
      (f := fun p => { p with
                       hasGuessed := true,
                       score := p.score + guesserPoints room.gameState.roundTimer })
      hp (fun x => rfl)
    exact find?_updateFirst_other h1 (fun x => rfl) hnd
  · rw [key]
    have h1 := @find?_updateFirst_other Player (fun p => p.id == sockId)
      (fun p => p.isDrawing)
      (fun p => { p with
                  hasGuessed := true,
                  score := p.score + guesserPoints room.gameState.roundTimer })
      room.gameState.players drawer hd (fun x => rfl) hdid
    exact find?_updateFirst_self h1 (fun x => rfl)

/-- C5 witness: Bob guessing "turtle" with 90 seconds left scores 64
(`max(10, ⌊90·0.6⌋+10)`), and Alice (drawer) gains 20. -/
theorem C5_witness :
    ((sendMessage "R" drawRoom "B" "turtle").1.gameState.players.find? (fun p => p.id == "B")
        = some { bob with hasGuessed := true, score := bob.score + guesserPoints 90 })
    ∧ ((sendMessage "R" drawRoom "B" "turtle").1.gameState.players.find? (fun p => p.isDrawing)
        = some { alice with score := alice.score + 20 }) := by
  have h := C5_scoring_awards "R" drawRoom "B" "turtle" bob alice (by decide) rfl rfl rfl
    (by decide) (by decide) (by decide)
  exact ⟨h.1, h.2.1⟩

/-- C6 (amended): `submitGuess` changes nothing when the sender is the
drawer, has already guessed, or no round is active; an eligible mismatch
leaves the room state untouched (so `hasGuessed` is never mutated by a
mismatch) and broadcasts the guess to the whole room — including the
guesser's own connection — with private near-miss feedback only when the
secret word is non-empty: distance 1 gives the one-letter-off message,
distance 2–3 the getting-warmer message, and larger distances nothing. -/
theorem C6_submitGuess_guards_and_feedback (rid : String) (room : RoomState)
    (sockId text : String) (player : Player)
    (hp : room.gameState.players.find? (fun p => p.id == sockId) = some player) :
    ((player.isDrawing = true ∨ player.hasGuessed = true ∨
        room.gameState.isRoundActive = false) →
        sendMessage rid room sockId text = (room, []))
    ∧ (player.isDrawing = false → player.hasGuessed = false →
        room.gameState.isRoundActive = true →
        strToLower (strTrim text) ≠ strToLower (strTrim room.gameState.currentWord) →
        (sendMessage rid room sockId text).1 = room
        ∧ Emit.playerGuessed (Target.room rid) player.name text
            ∈ (sendMessage rid room sockId text).2
        ∧ (room.gameState.currentWord ≠ "" →
            levenshteinDistance (strToLower (strTrim text))
                (strToLower (strTrim room.gameState.currentWord)) = 1 →
              (sendMessage rid room sockId text).2 =
                [Emit.playerGuessed (Target.room rid) player.name text,
                 Emit.closeGuess (Target.conn sockId) "So close! One letter is off."])
        ∧ (room.gameState.currentWord ≠ "" →
            2 ≤ levenshteinDistance (strToLower (strTrim text))
                (strToLower (strTrim room.gameState.currentWord)) →
            levenshteinDistance (strToLower (strTrim text))
                (strToLower (strTrim room.gameState.currentWord)) ≤ 3 →
              (sendMessage rid room sockId text).2 =
                [Emit.playerGuessed (Target.room rid) player.name text,
                 Emit.closeGuess (Target.conn sockId) "You\x27re getting warmer!"])
        ∧ (3 < levenshteinDistance (strToLower (strTrim text))
              (strToLower (strTrim room.gameState.currentWord)) →
              (sendMessage rid room sockId text).2 =
                [Emit.playerGuessed (Target.room rid) player.name text])
        ∧ (room.gameState.currentWord = "" →
              (sendMessage rid room sockId text).2 =
                [Emit.playerGuessed (Target.room rid) player.name text])) := by
  constructor
  · intro hin
    unfold sendMessage
    dsimp only
    simp only [hp]
    rw [if_pos (by rcases hin with h | h | h <;> simp [h])]
  · intro hnd hng hact hne
    have hkey : sendMessage rid room sockId text =
        (room, [Emit.playerGuessed (Target.room rid) player.name text] ++
          (if room.gameState.currentWord != "" then
            (if levenshteinDistance (strToLower (strTrim text))
                (strToLower (strTrim room.gameState.currentWord)) == 1 then
              [Emit.closeGuess (Target.conn sockId) "So close! One letter is off."]
            else if levenshteinDistance (strToLower (strTrim text))
                (strToLower (strTrim room.gameState.currentWord)) ≤ 3 then
              [Emit.closeGuess (Target.conn sockId) "You\x27re getting warmer!"]
            else [])
          else [])) := by
      unfold sendMessage
      dsimp only
      simp only [hp]
      rw [if_neg (by simp [hnd, hng, hact])]
      rw [if_neg (by simp [hne])]
    refine ⟨by rw [hkey], ?_, ?_, ?_, ?_, ?_⟩
    · rw [hkey]
      exact List.mem_append.mpr (Or.inl (List.mem_singleton.mpr rfl))
    · intro hw h1
      rw [hkey]
      rw [if_pos (by simp [hw]), if_pos (by simp [h1])]
      rfl
    · intro hw h2 h3
      rw [hkey]
      rw [if_pos (by simp [hw]), if_neg (by simp; omega), if_pos h3]
      rfl
    · intro h4
      by_cases hw : room.gameState.currentWord = ""
      · rw [hkey, if_neg (by simp [hw])]
        simp
      · rw [hkey, if_pos (by simp [hw]), if_neg (by simp; omega), if_neg (by omega)]
        simp
    · intro hw
      rw [hkey, if_neg (by simp [hw])]
      simp

/-- C6 witness: the drawer's chat is rejected without any change, and an
eligible mismatch leaves the room state untouched. -/
theorem C6_witness :
    sendMessage "R" drawRoom "A" "hello" = (drawRoom, [])
    ∧ (sendMessage "R" drawRoom "B" "abcdefgh").1 = drawRoom := by
  have h1 := C6_submitGuess_guards_and_feedback "R" drawRoom "A" "hello" alice (by decide)
  have h2 := C6_submitGuess_guards_and_feedback "R" drawRoom "B" "abcdefgh" bob (by decide)
  exact ⟨h1.1 (Or.inl rfl), (h2.2 rfl rfl rfl (by decide)).1⟩

/-- C6 counterexample to the claim as stated: an eligible mismatch is
broadcast with `io.to(roomId)`, so the single chat emission reaches the
guesser's own connection (the claim says it is withheld from the guesser);
and with the (reachable) empty secret word a guess at edit distance 1
produces no near-miss feedback at all. -/
theorem C6_counterexample :
    ((sendMessage "R" drawRoom "B" "abcdefgh").2
        = [Emit.playerGuessed (Target.room "R") "Bob" "abcdefgh"]
      ∧ Target.reaches (Target.room "R") "B" ["A", "B"] = true)
    ∧ ((sendMessage "R" emptyWordRoom "B" "x").2
        = [Emit.playerGuessed (Target.room "R") "Bob" "x"]
      ∧ levenshteinDistance "x" "" = 1) := by
  refine ⟨⟨?_, ?_⟩, ⟨?_, ?_⟩⟩ <;> rfl

/-- C3 witness: with "turtle" fully hidden a reveal still leaves at least 2
letters hidden, and with no active word the reveal is a no-op. -/
theorem C3_witness :
    (2 ≤ hiddenCount (revealHint "R" drawRoom 0).1.gameState)
    ∧ revealHint "R" lobbyRoom 0 = (lobbyRoom, []) := by
  exact ⟨(C3_revealHint_hint_invariants "R" drawRoom 0).2.2.1 (by decide),
    (C3_revealHint_hint_invariants "R" lobbyRoom 0).2.1 (by decide)⟩

/-- C9 witness: with every index revealed, "ice" masks to its own
characters separated by spaces. -/
theorem C9_witness :
    (getMaskedWord "ice" [0, 1, 2]).data = List.intersperse ' ' "ice".data := by
  exact (C9_mask_semantics "ice" [0, 1, 2]).2.2 (by decide)
